import Mathlib

/-!
Shallow embedding of the tiered-cost engine, pooled-savings allocator and
invoice-text extraction pipeline of the wring-aws-code repository.

Numbers are modelled as rationals (JavaScript numbers are IEEE doubles;
the claims under study are either exact identities, inequalities with
slack far above double rounding error, or structural properties, so the
rational model is faithful for them).  The JavaScript value Infinity used
as a tier upper bound is modelled as the `none` case of an Option.
JavaScript Date.now() is modelled as an explicit natural-number argument
named now, so that dependence of outputs on the clock is visible in the
embedding.
-/

/-- PricingTier record with fields minUsage, maxUsage, pricePerUnit;
maxUsage = none stands for the JavaScript Infinity. -/
structure SKUTier where
  minUsage : ℚ
  maxUsage : Option ℚ
  pricePerUnit : ℚ
deriving DecidableEq

/-- Loop of calculateTieredCost from src/api/pool/stats.js (the same loop
appears in src/api/index.js and src/unnamed/part_002): walks the tiers
keeping remainingUsage; a finite tier has capacity maxUsage - minUsage + 1,
an infinite tier absorbs all remaining usage. -/
def calcTierAux : List SKUTier → ℚ → ℚ
  | [], _ => 0
  | t :: rest, remainingUsage =>
    if remainingUsage ≤ 0 then 0
    else
      let tierCapacity : ℚ :=
        match t.maxUsage with
        | none => remainingUsage
        | some m => m - t.minUsage + 1
      let tierUsage := min remainingUsage tierCapacity
      tierUsage * t.pricePerUnit + calcTierAux rest (remainingUsage - tierUsage)

/-- EC2 tier table of PRICING_TIERS in src/api/pool/stats.js. -/
def statsEC2Tiers : List SKUTier :=
  [⟨0, some 744, 0.0464⟩, ⟨745, some 8760, 0.0418⟩, ⟨8761, none, 0.0372⟩]

/-- S3 tier table of PRICING_TIERS in src/api/pool/stats.js. -/
def statsS3Tiers : List SKUTier :=
  [⟨0, some 50000, 0.023⟩, ⟨50001, some 450000, 0.022⟩, ⟨450001, none, 0.021⟩]

/-- Catalog lookup PRICING_TIERS[service] of src/api/pool/stats.js
(none models an absent key). -/
def PRICING_TIERS (service : String) : Option (List SKUTier) :=
  if service = "EC2" then some statsEC2Tiers
  else if service = "S3" then some statsS3Tiers
  else none

/-- calculateTieredCost(service, usage) of src/api/pool/stats.js:
the lookup PRICING_TIERS[service] || PRICING_TIERS["EC2"] followed by the
capacity loop. -/
def calculateTieredCost (service : String) (usage : ℚ) : ℚ :=
  calcTierAux ((PRICING_TIERS service).getD statsEC2Tiers) usage

/-! ## SKU-level engine of src/unnamed/part_004 -/

/-- Tier tables SKU_PRICING_TIERS of src/unnamed/part_004 as an
association list in source order (contiguous boundaries: each minUsage
equals the previous maxUsage; the object keys are distinct). -/
def SKU_PRICING_LIST : List (String × List SKUTier) :=
  [("EC2-t3.micro-us-east-1",
      [⟨0, some 750, 0⟩, ⟨750, some 8760, 0.0104⟩,
       ⟨8760, some 87600, 0.0094⟩, ⟨87600, none, 0.0084⟩]),
   ("EC2-t3.small-us-east-1",
      [⟨0, some 8760, 0.0208⟩, ⟨8760, some 87600, 0.0188⟩, ⟨87600, none, 0.0168⟩]),
   ("EC2-t3.medium-us-east-1",
      [⟨0, some 8760, 0.0416⟩, ⟨8760, some 87600, 0.0376⟩, ⟨87600, none, 0.0336⟩]),
   ("S3-Standard-us-east-1",
      [⟨0, some 50000, 0.023⟩, ⟨50000, some 450000, 0.022⟩, ⟨450000, none, 0.021⟩]),
   ("S3-IA-us-east-1", [⟨0, none, 0.0125⟩]),
   ("S3-Glacier-us-east-1", [⟨0, none, 0.004⟩]),
   ("RDS-db.t3.micro-us-east-1",
      [⟨0, some 750, 0⟩, ⟨750, some 8760, 0.017⟩,
       ⟨8760, some 87600, 0.015⟩, ⟨87600, none, 0.013⟩]),
   ("RDS-db.t3.small-us-east-1",
      [⟨0, some 8760, 0.034⟩, ⟨8760, some 87600, 0.031⟩, ⟨87600, none, 0.028⟩]),
   ("DataTransfer-InternetEgress-us-east-1",
      [⟨0, some 1, 0⟩, ⟨1, some 10000, 0.09⟩, ⟨10000, some 50000, 0.085⟩,
       ⟨50000, some 150000, 0.070⟩, ⟨150000, none, 0.050⟩]),
   ("CloudFront-DataTransfer-us-east-1",
      [⟨0, some 10000, 0.085⟩, ⟨10000, some 50000, 0.080⟩,
       ⟨50000, some 150000, 0.060⟩, ⟨150000, none, 0.040⟩]),
   ("SES-EmailSending-us-east-1",
      [⟨0, some 62000, 0⟩, ⟨62000, none, 0.0001⟩]),
   ("SNS-Requests-us-east-1",
      [⟨0, some 1000000, 0⟩, ⟨1000000, none, 0.0000005⟩])]

/-- Object lookup SKU_PRICING_TIERS[skuId] of src/unnamed/part_004 (none
models an absent key). -/
def SKU_PRICING_TIERS (skuId : String) : Option (List SKUTier) :=
  (SKU_PRICING_LIST.find? (fun e => e.1 == skuId)).map (fun e => e.2)

/-- Loop of calculateSKUTieredCost in src/unnamed/part_004, lines 110-134:
keeps the running usageProcessed; tierEnd is min(maxUsage, totalUsage)
(totalUsage for an infinite tier); breaks when totalUsage ≤ tierStart or
when tierEnd ≥ totalUsage. -/
def skuTierAux : List SKUTier → ℚ → ℚ → ℚ
  | [], _, _ => 0
  | t :: rest, totalUsage, usageProcessed =>
    let tierStart := t.minUsage
    let tierEnd : ℚ :=
      match t.maxUsage with
      | none => totalUsage
      | some m => min m totalUsage
    if totalUsage ≤ tierStart then 0
    else
      let usageInThisTier := tierEnd - max tierStart usageProcessed
      let contrib := if 0 < usageInThisTier then usageInThisTier * t.pricePerUnit else 0
      let nextProcessed :=
        if 0 < usageInThisTier then usageProcessed + usageInThisTier else usageProcessed
      if totalUsage ≤ tierEnd then contrib
      else contrib + skuTierAux rest totalUsage nextProcessed

/-- calculateSKUTieredCost(skuId, totalUsage) of src/unnamed/part_004:
absent SKUs take the flat fallback pricing totalUsage * 0.01, known SKUs
run the tier loop starting from usageProcessed = 0. -/
def calculateSKUTieredCost (skuId : String) (totalUsage : ℚ) : ℚ :=
  match SKU_PRICING_TIERS skuId with
  | none => totalUsage * 0.01
  | some tiers => skuTierAux tiers totalUsage 0

/-- Record of a customer SKU line as consumed by the pooled-cost allocator
(fields sku.skuId and sku.usage of src/unnamed/part_004). -/
structure PoolSKU where
  skuId : String
  usage : ℚ
deriving DecidableEq

/-- calculateCustomerSKUPooledCost(customerSKUs, poolTotals) of
src/unnamed/part_004, lines 140-157: each SKU line contributes its
proportional share of the tiered cost of the pool total; zero pool usage
or zero own usage contributes nothing.  poolTotals is modelled as a total
function (the JS lookup defaults an absent key to 0). -/
def calculateCustomerSKUPooledCost (customerSKUs : List PoolSKU)
    (poolTotals : String → ℚ) : ℚ :=
  (customerSKUs.map (fun sku =>
    let totalPoolUsage := poolTotals sku.skuId
    if totalPoolUsage = 0 ∨ sku.usage = 0 then 0
    else calculateSKUTieredCost sku.skuId totalPoolUsage * (sku.usage / totalPoolUsage))).sum

/-! ## Invoice records, pool statistics and the delete endpoint -/

/-- Usage record as produced by the extraction pipeline and consumed by
the pool endpoints (fields of the items pushed in src/unnamed/part_002). -/
structure Item where
  id : String
  service : String
  usage : ℚ
  totalCost : ℚ
  region : String
  unit : String
deriving DecidableEq

/-- Invoice entity as stored in the invoices array of the servers (only
the fields read by the pool/stats, savings and delete endpoints). -/
structure StoredInvoice where
  id : String
  customerName : String
  items : List Item
  totalCost : ℚ
deriving DecidableEq

/-- Concatenation of the items of every invoice, in order: the traversal
invoices.forEach(invoice => invoice.items.forEach(...)) of the
/api/pool/stats handler in src/api/pool/stats.js. -/
def allPoolItems (invoices : List StoredInvoice) : List Item :=
  invoices.foldr (fun inv acc => inv.items ++ acc) []

/-- Accumulated totalCost over every item of every invoice (variable
totalCost of the /api/pool/stats handler). -/
def statsTotalCost (invoices : List StoredInvoice) : ℚ :=
  ((allPoolItems invoices).map Item.totalCost).sum

/-- The distinct service keys of the totalUsage object built by the
/api/pool/stats handler. -/
def statsServiceList (invoices : List StoredInvoice) : List String :=
  ((allPoolItems invoices).map Item.service).dedup

/-- totalUsage[service]: accumulated usage of the given service over
every item of every invoice. -/
def statsUsageFor (invoices : List StoredInvoice) (service : String) : ℚ :=
  (((allPoolItems invoices).filter (fun it => it.service == service)).map Item.usage).sum

/-- pooledCost of the /api/pool/stats handler: sum of calculateTieredCost
over the entries of totalUsage (rational addition is commutative, so the
object iteration order is irrelevant to the sum). -/
def statsPooledCost (invoices : List StoredInvoice) : ℚ :=
  ((statsServiceList invoices).map
    (fun s => calculateTieredCost s (statsUsageFor invoices s))).sum

/-- estimatedSavings = Math.max(0, totalCost - pooledCost) of the
/api/pool/stats handler in src/api/pool/stats.js, lines 58-63. -/
def statsEstimatedSavings (invoices : List StoredInvoice) : ℚ :=
  max 0 (statsTotalCost invoices - statsPooledCost invoices)

/-- DELETE /api/invoices/:id of src/server.js lines 954-963 (identical in
src/api/index.js and src/unnamed/part_004): the array is replaced by
invoices.filter(inv => inv.id !== id); the response status is 200 when the
length shrank and 404 otherwise. -/
def deleteInvoice (invoices : List StoredInvoice) (id : String) :
    List StoredInvoice × Nat :=
  let remaining := invoices.filter (fun inv => inv.id != id)
  if remaining.length < invoices.length then (remaining, 200) else (remaining, 404)

/-! ## Character-level embedding of the extraction regexes

The JavaScript patterns in play have the shape NAME.*?\$([0-9,]+\.?[0-9]*)
with flags gi, plus the bare amount pattern \$([0-9,]+\.?[0-9]*) with flag
g.  NAME is a literal (case-insensitive) service name, in part_002 with
\s+ between words.  Inside these patterns a greedy character-class run is
always followed by a character outside the class, so greedy matching needs
no backtracking, and the lazy .*? (which cannot cross a line break)
stops at the first position where the dollar-amount tail matches: both are
implemented directly below. -/

/-- Decides membership in the character class [0-9]. -/
def isDigitChar (c : Char) : Bool :=
  decide ('0' ≤ c) && decide (c ≤ '9')

/-- Decides membership in the character class [0-9,]. -/
def isDigitComma (c : Char) : Bool :=
  isDigitChar c || decide (c = ',')

/-- ASCII fragment of the JavaScript case-insensitive flag: the code point
with uppercase letters mapped to lowercase (the service names involved are
pure ASCII). -/
def lowerNat (c : Char) : Nat :=
  if 65 ≤ c.toNat ∧ c.toNat ≤ 90 then c.toNat + 32 else c.toNat

/-- Decides membership in \s (ASCII fragment: the whitespace characters
occurring in invoice text). -/
def isWsChar (c : Char) : Bool :=
  decide (c = ' ') || decide (c = '\t') || decide (c = '\n') ||
    decide (c = '\r') || decide (c = '\x0b') || decide (c = '\x0c')

/-- Token of a service-name pattern: a literal character (stored
lowercase, compared case-insensitively) or a \s+ separator. -/
inductive NameTok where
  | lit (c : Char)
  | ws
deriving DecidableEq

/-- Literal tokens of a (lowercase) pattern fragment. -/
def litToks (s : String) : List NameTok :=
  s.toList.map NameTok.lit

/-- Matches a service-name pattern at the head of the text, returning the
number of characters consumed and the remaining suffix.  A ws token takes
a maximal nonempty whitespace run; since every ws in the embedded patterns
is followed by a non-whitespace literal, the greedy run is exact. -/
def matchToks : List NameTok → List Char → Option (Nat × List Char)
  | [], s => some (0, s)
  | NameTok.lit p :: ts, c :: s =>
    if lowerNat c = p.toNat then
      match matchToks ts s with
      | some (n, r) => some (n + 1, r)
      | none => none
    else none
  | NameTok.lit _ :: _, [] => none
  | NameTok.ws :: ts, s =>
    let w := s.takeWhile isWsChar
    if w.isEmpty then none
    else
      match matchToks ts (s.dropWhile isWsChar) with
      | some (n, r) => some (w.length + n, r)
      | none => none

/-- Greedy capture of [0-9,]+\.?[0-9]* (the head of the input is already
known to be in [0-9,]): returns the captured characters. -/
def takeAmount (s : List Char) : List Char :=
  let d1 := s.takeWhile isDigitComma
  match s.dropWhile isDigitComma with
  | '.' :: r2 => d1 ++ '.' :: r2.takeWhile isDigitChar
  | _ => d1

/-- Attempts \$([0-9,]+\.?[0-9]*) at the head of the text: a dollar sign
followed by at least one character of [0-9,].  Returns the capture and the
length of the full match. -/
def tryDollarAt : List Char → Option (List Char × Nat)
  | '$' :: s =>
    match s with
    | c :: _ =>
      if isDigitComma c then
        let cap := takeAmount s
        some (cap, cap.length + 1)
      else none
    | [] => none
  | _ => none

/-- Lazy tail .*?\$([0-9,]+\.?[0-9]*): scans forward for the first
position where the dollar-amount part matches, consuming intermediate
characters with . (which cannot match a line break).  Returns the capture
and the number of characters consumed including the amount. -/
def lazyDollar : List Char → Option (List Char × Nat)
  | [] => none
  | c :: s =>
    match tryDollarAt (c :: s) with
    | some (cap, n) => some (cap, n)
    | none =>
      if c = '\n' ∨ c = '\r' then none
      else
        match lazyDollar s with
        | some (cap, n) => some (cap, n + 1)
        | none => none

/-- Attempts a full service pattern NAME.*?\$([0-9,]+\.?[0-9]*) at the
head of the text. -/
def tryServiceAt (pat : List NameTok) (s : List Char) : Option (List Char × Nat) :=
  match matchToks pat s with
  | none => none
  | some (n, r) =>
    match lazyDollar r with
    | none => none
    | some (cap, m) => some (cap, n + m)

/-- Global scan (the exec loop with flag g): tries the pattern at each
position left to right; after a match of length n the next attempt starts
n characters further (non-overlapping matches).  The skip counter k tracks
positions still covered by the previous match. -/
def scanGo (tryAt : List Char → Option (List Char × Nat)) :
    List Char → Nat → List (List Char)
  | [], _ => []
  | _ :: rest, Nat.succ k => scanGo tryAt rest k
  | c :: rest, 0 =>
    match tryAt (c :: rest) with
    | some (cap, n) => cap :: scanGo tryAt rest (n - 1)
    | none => scanGo tryAt rest 0

/-- All captures of the pattern over the text, leftmost first. -/
def scanAll (tryAt : List Char → Option (List Char × Nat)) (s : List Char) :
    List (List Char) :=
  scanGo tryAt s 0

/-- The replace(/[,$]/g, '') step applied to a capture: a capture never
contains a dollar sign, so only commas are removed. -/
def stripCommas (s : List Char) : List Char :=
  s.filter (fun c => decide (c ≠ ','))

/-- Numeric value of a digit character. -/
def digitVal (c : Char) : ℕ := c.toNat - 48

/-- Value of a digit run read in base 10. -/
def natOfDigits (s : List Char) : ℕ :=
  s.foldl (fun a c => a * 10 + digitVal c) 0

/-- parseFloat restricted to the strings reaching it here, namely captures
of [0-9,]+\.?[0-9]* with the commas removed: digits, at most one dot,
digits.  none models NaN (no digit at all, or a bare dot). -/
def parseRat (s : List Char) : Option ℚ :=
  let ip := s.takeWhile isDigitChar
  match s.dropWhile isDigitChar with
  | '.' :: r2 =>
    let fp := r2.takeWhile isDigitChar
    if ip.isEmpty && fp.isEmpty then none
    else some ((natOfDigits ip : ℚ) + (natOfDigits fp : ℚ) / (10 : ℚ) ^ fp.length)
  | _ => if ip.isEmpty then none else some ((natOfDigits ip : ℚ))

/-- Math.round: the nearest integer, halves toward positive infinity. -/
def jsRound (q : ℚ) : ℚ := ((⌊q + 1 / 2⌋ : ℤ) : ℚ)

/-- estimateUsageFromCost(service, cost) of src/unnamed/part_002: the per
service baseline division, rounded.  The JS expression is
Math.round(estimations[service] || cost * 10); the || fallback triggers
either on an unknown service or on a zero estimate, and a zero estimate
happens only at cost 0 where the fallback value is also 0, so the plain
case split below is extensionally identical. -/
def estimateUsageFromCost (service : String) (cost : ℚ) : ℚ :=
  jsRound
    (if service = "EC2" then cost / 0.0464
     else if service = "S3" then cost / 0.023 * 1000
     else if service = "RDS" then cost / 0.017
     else if service = "CloudFront" then cost / 0.085 * 1000
     else if service = "DataTransfer" then cost / 0.09 * 1000
     else if service = "Lambda" then cost / 0.0000002
     else cost * 10)

/-- AWS_SERVICE_MAPPINGS of src/unnamed/part_002 (and src/api/index.js):
full service name, short service code, unit. -/
def AWS_SERVICE_MAPPINGS : List (String × String × String) :=
  [("Amazon Elastic Compute Cloud", "EC2", "hours"),
   ("Amazon Simple Storage Service", "S3", "GB"),
   ("AWS Data Transfer", "DataTransfer", "GB"),
   ("Amazon Relational Database Service", "RDS", "hours"),
   ("Amazon RDS Service", "RDS", "hours"),
   ("Amazon CloudFront", "CloudFront", "GB"),
   ("AWS Lambda", "Lambda", "requests"),
   ("Amazon Simple Email Service", "SES", "emails"),
   ("Amazon Simple Notification Service", "SNS", "requests")]

/-- Decides whether the pattern code list occurs at the head of the
haystack code list. -/
def leadsWith : List Nat → List Nat → Bool
  | [], _ => true
  | _ :: _, [] => false
  | p :: ps, h :: hs => decide (p = h) && leadsWith ps hs

/-- Decides whether the pattern code list occurs anywhere in the haystack
code list (the JS String.includes). -/
def hasSubSeq (pat hay : List Nat) : Bool :=
  hay.tails.any (fun t => leadsWith pat t)

/-- Lowercased code points of a string. -/
def lowerCodes (s : String) : List Nat :=
  s.toList.map lowerNat

/-- Raw code points of a string. -/
def rawCodes (s : String) : List Nat :=
  s.toList.map Char.toNat

/-- Case-sensitive String.includes(pat) on hay. -/
def strContains (hay pat : String) : Bool :=
  hasSubSeq (rawCodes pat) (rawCodes hay)

/-- The unit chosen for a strategy item in src/unnamed/part_002 line 123:
the unit of the first AWS_SERVICE_MAPPINGS entry whose lowercased key
contains the lowercased service type, or the literal units. -/
def unitForType (svcType : String) : String :=
  match AWS_SERVICE_MAPPINGS.find?
      (fun m => hasSubSeq (lowerCodes svcType) (lowerCodes m.1)) with
  | some m => m.2.2
  | none => "units"

/-- The six service patterns of parseInvoiceText in src/unnamed/part_002
with their service types, in source order. -/
def part002Pats : List (List NameTok × String) :=
  [(litToks "amazon" ++ NameTok.ws :: litToks "ec2", "EC2"),
   (litToks "amazon" ++ NameTok.ws :: litToks "s3", "S3"),
   (litToks "amazon" ++ NameTok.ws :: litToks "rds", "RDS"),
   (litToks "cloudfront", "CloudFront"),
   (litToks "data" ++ NameTok.ws :: litToks "transfer", "DataTransfer"),
   (litToks "lambda", "Lambda")]

/-- One item pushed by a service pattern of src/unnamed/part_002: id
item-<Date.now()>-<items.length>, estimated usage, fixed region. -/
def mkStrategyItem (now idx : ℕ) (svc : String) (c : ℚ) : Item :=
  ⟨"item-" ++ toString now ++ "-" ++ toString idx, svc,
    estimateUsageFromCost svc c, c, "us-east-1", unitForType svc⟩

/-- Items contributed by one pattern of src/unnamed/part_002: every global
match whose parsed cost is a number greater than 0 pushes an item; the
running items.length indexes the ids. -/
def addPatternItems (now : ℕ) (text : List Char) (acc : List Item)
    (p : List NameTok × String) : List Item :=
  (scanAll (tryServiceAt p.1) text).foldl
    (fun acc2 cap =>
      match parseRat (stripCommas cap) with
      | some c => if 0 < c then acc2 ++ [mkStrategyItem now acc2.length p.2 c] else acc2
      | none => acc2)
    acc

/-- Items of all six service patterns of src/unnamed/part_002, in source
order. -/
def strategyItems (now : ℕ) (text : List Char) : List Item :=
  part002Pats.foldl (addPatternItems now text) []

/-- The single fallback item of src/unnamed/part_002 lines 136-143: id
item-<Date.now()> (no index), default service EC2, unit hours. -/
def fallbackEC2Item (now : ℕ) (c : ℚ) : Item :=
  ⟨"item-" ++ toString now, "EC2", estimateUsageFromCost "EC2" c, c,
    "us-east-1", "hours"⟩

/-- parseInvoiceText of src/unnamed/part_002, lines 97-155: run the six
service patterns; if no item was produced, take the first global match of
\$([0-9,]+\.?[0-9]*) and, when its parsed value is positive, emit one
fallback EC2 item; if the item list is still empty, throw (modelled as
none).  Otherwise return the items and their summed totalCost. -/
def parseInvoiceText (now : ℕ) (text : String) : Option (List Item × ℚ) :=
  let s := text.toList
  let base := strategyItems now s
  let items :=
    if base.isEmpty then
      match scanAll tryDollarAt s with
      | [] => base
      | cap :: _ =>
        match parseRat (stripCommas cap) with
        | some c => if 0 < c then [fallbackEC2Item now c] else base
        | none => base
    else base
  if items.isEmpty then none
  else some (items, (items.map Item.totalCost).sum)

/-! ## fallbackSKUParsing of src/unnamed/part_004 -/

/-- SKU-level usage record pushed by fallbackSKUParsing of
src/unnamed/part_004. -/
structure SkuItem where
  id : String
  skuId : String
  service : String
  usage : ℚ
  totalCost : ℚ
  region : String
  unit : String
deriving DecidableEq

/-- One entry of the servicePatterns array of fallbackSKUParsing in
src/unnamed/part_004: the name pattern, service code, unit, and the
per-cost SKU and usage estimators. -/
structure SkuPattern where
  toks : List NameTok
  service : String
  unit : String
  getSKU : ℚ → String
  getUsage : ℚ → String → ℚ

/-- The seven servicePatterns of fallbackSKUParsing in
src/unnamed/part_004, lines 257-322, in source order.  The name patterns
contain literal single spaces (no \s+). -/
def part004Pats : List SkuPattern :=
  [⟨litToks "amazon simple storage service", "S3", "GB",
      fun _ => "S3-Standard-us-east-1",
      fun c _ => jsRound (c / 0.023 * 1000)⟩,
   ⟨litToks "aws data transfer", "DataTransfer", "GB",
      fun _ => "DataTransfer-InternetEgress-us-east-1",
      fun c _ => jsRound (c / 0.09 * 1000)⟩,
   ⟨litToks "amazon rds service", "RDS", "hours",
      fun c => if c < 30 then "RDS-db.t3.micro-us-east-1" else "RDS-db.t3.small-us-east-1",
      fun c skuId =>
        if strContains skuId "t3.micro" then jsRound (c / 0.017)
        else if strContains skuId "t3.small" then jsRound (c / 0.034)
        else jsRound (c / 0.017)⟩,
   ⟨litToks "amazon cloudfront", "CloudFront", "GB",
      fun _ => "CloudFront-DataTransfer-us-east-1",
      fun c _ => jsRound (c / 0.085 * 1000)⟩,
   ⟨litToks "amazon simple email service", "SES", "emails",
      fun _ => "SES-EmailSending-us-east-1",
      fun c _ => jsRound (c / 0.0001)⟩,
   ⟨litToks "amazon elastic compute cloud", "EC2", "hours",
      fun c =>
        if c < 10 then "EC2-t3.micro-us-east-1"
        else if c < 50 then "EC2-t3.small-us-east-1"
        else "EC2-t3.medium-us-east-1",
      fun c skuId =>
        if strContains skuId "t3.micro" then jsRound (c / 0.0104)
        else if strContains skuId "t3.small" then jsRound (c / 0.0208)
        else if strContains skuId "t3.medium" then jsRound (c / 0.0416)
        else jsRound (c / 0.0104)⟩,
   ⟨litToks "amazon simple notification service", "SNS", "requests",
      fun _ => "SNS-Requests-us-east-1",
      fun c _ => jsRound (c / 0.0000005)⟩]

/-- One SKU item pushed by fallbackSKUParsing: id
sku-<Date.now()>-<skuItems.length>, SKU chosen from the cost, usage
estimated from cost and SKU. -/
def mkSkuItem (now idx : ℕ) (p : SkuPattern) (c : ℚ) : SkuItem :=
  ⟨"sku-" ++ toString now ++ "-" ++ toString idx, p.getSKU c, p.service,
    p.getUsage c (p.getSKU c), c, "us-east-1", p.unit⟩

/-- SKU items contributed by one pattern of fallbackSKUParsing. -/
def addSkuPatternItems (now : ℕ) (text : List Char) (acc : List SkuItem)
    (p : SkuPattern) : List SkuItem :=
  (scanAll (tryServiceAt p.toks) text).foldl
    (fun acc2 cap =>
      match parseRat (stripCommas cap) with
      | some c => if 0 < c then acc2 ++ [mkSkuItem now acc2.length p c] else acc2
      | none => acc2)
    acc

/-- fallbackSKUParsing(text) of src/unnamed/part_004, lines 253-347: run
the seven patterns in order and return the SKU items with their summed
totalCost. -/
def fallbackSKUParsing (now : ℕ) (text : String) : List SkuItem × ℚ :=
  let skuItems := part004Pats.foldl (addSkuPatternItems now text.toList) []
  (skuItems, (skuItems.map SkuItem.totalCost).sum)

/-! ## removeDuplicateItems of src/api/index.js -/

/-- Identity key of the dedup step in src/api/index.js line 316: the JS
string key is the template <service>-<totalCost>, which for the service
codes and nonnegative costs produced by the strategies is one-to-one with
the pair (service, totalCost) modelled here. -/
def itemKey (it : Item) : String × ℚ := (it.service, it.totalCost)

/-- Filtering loop of removeDuplicateItems: an item is kept when its key
was not seen before, and its key is then added to the seen set. -/
def removeDupAux : List Item → List (String × ℚ) → List Item
  | [], _ => []
  | it :: rest, seen =>
    if itemKey it ∈ seen then removeDupAux rest seen
    else it :: removeDupAux rest (itemKey it :: seen)

/-- removeDuplicateItems(items) of src/api/index.js, lines 313-323. -/
def removeDuplicateItems (items : List Item) : List Item :=
  removeDupAux items []

/-! ## Predicates used to state the extraction claims -/

/-- The text has an occurrence of the currency pattern
\$([0-9,]+\.?[0-9]*) at some position. -/
def currencyOccurs (s : List Char) : Bool :=
  s.tails.any (fun t => (tryDollarAt t).isSome)

/-- The given service-name pattern matches at some position of the
text. -/
def nameOccurs (pat : List NameTok) (s : List Char) : Bool :=
  s.tails.any (fun t => (matchToks pat t).isSome)

/-- Some recognized service name of src/unnamed/part_002 occurs in the
text. -/
def anyServiceNameOccurs (text : String) : Bool :=
  part002Pats.any (fun p => nameOccurs p.1 text.toList)

/-- Parsed value of the first currency match of the text, as used by the
fallback branch of parseInvoiceText. -/
def firstCurrencyValue (text : String) : Option ℚ :=
  match scanAll tryDollarAt text.toList with
  | [] => none
  | cap :: _ => parseRat (stripCommas cap)

/-- Modelled from the spec, section 4.1: the designated default pricing
used for a SKU absent from the catalog, written as a one-tier table.  The
code of calculateSKUTieredCost returns the flat fallback totalUsage * 0.01
for an absent SKU; this table is the tier-table form of that flat rate,
against which the fallback is compared. -/
def specDefaultFlatTiers : List SKUTier := [⟨0, none, 0.01⟩]

/-! ## Structure of the tier tables

The SKU-level tables of src/unnamed/part_004 are contiguous: the first
tier starts at 0, each finite tier ends strictly above its start at the
start of the next tier, and the last tier is infinite.  TiersWF states
this shape; tierClosed is the closed form of the loop on such tables,
used to prove monotonicity. -/

/-- Well-formed contiguous tier table starting at s: either a single
infinite tier at s, or a finite tier [s, m) with m > s followed by a
well-formed table starting at m. -/
inductive TiersWF : ℚ → List SKUTier → Prop where
  | last (s p : ℚ) : TiersWF s [⟨s, none, p⟩]
  | cons (s m p : ℚ) (rest : List SKUTier) (hsm : s < m) (hrest : TiersWF m rest) :
      TiersWF s (⟨s, some m, p⟩ :: rest)

/-- Closed form of the part_004 tier loop on a contiguous table: each tier
contributes its price times the part of the usage falling inside it. -/
def tierClosed : List SKUTier → ℚ → ℚ
  | [], _ => 0
  | t :: rest, totalUsage =>
    let tierEnd : ℚ :=
      match t.maxUsage with
      | none => totalUsage
      | some m => min m totalUsage
    t.pricePerUnit * max 0 (tierEnd - t.minUsage) + tierClosed rest totalUsage

/-- All unit prices of the table are nonnegative. -/
def PricesNonneg (tiers : List SKUTier) : Prop :=
  ∀ t ∈ tiers, 0 ≤ t.pricePerUnit

/-- Hypotheses under which the capacity loop of calculateTieredCost is
monotone: nonnegative prices and nonnegative capacities. -/
def CapTableOK (tiers : List SKUTier) : Prop :=
  ∀ t ∈ tiers, 0 ≤ t.pricePerUnit ∧ ∀ m, t.maxUsage = some m → 0 ≤ m - t.minUsage + 1

/-! ## Theorems -/

/-- C3: for every collection of invoices, the estimatedSavings value of
the pool-statistics computation is greater than or equal to zero: the
Math.max(0, ...) clamp makes it nonnegative whatever the tier tables and
record values are. -/
theorem c3_estimated_savings_nonneg (invoices : List StoredInvoice) :
    0 ≤ statsEstimatedSavings invoices :=
  le_max_left 0 _

/-- C2 counterexample: at SKU EC2 and total usage 1000 the tiered cost is
not within 1e-6 of 744 x 0.0464 + 256 x 0.0418 = 45.2224 as the claim
states; the code yields 45.227. -/
theorem c2_counterexample :
    ¬ |calculateTieredCost "EC2" 1000 - (744 * 0.0464 + 256 * 0.0418 : ℚ)| ≤ 1 / 1000000 := by
  have h : calculateTieredCost "EC2" 1000 = 45.227 := by
    norm_num [calculateTieredCost, PRICING_TIERS, statsEC2Tiers, calcTierAux]
  rw [h, show (45.227 : ℚ) - (744 * 0.0464 + 256 * 0.0418) = 0.0046 by norm_num,
    abs_of_pos (by norm_num : (0 : ℚ) < 0.0046)]
  norm_num

/-- C2 amended: for the EC2 tier table of the code, whose loop gives a
finite tier the capacity maxUsage - minUsage + 1 (so the first tier
[0, 744] holds 745 units), the tiered cost of SKU EC2 at total usage 1000
is 745 x 0.0464 + 255 x 0.0418 = 45.227 exactly. -/
theorem c2_amended_ec2_1000 :
    calculateTieredCost "EC2" 1000 = 745 * 0.0464 + 255 * 0.0418 := by
  norm_num [calculateTieredCost, PRICING_TIERS, statsEC2Tiers, calcTierAux]

/-- C9: a skuId absent from the pricing catalogs does not abort the cost
computation: the service-level engine falls back to the designated default
EC2 table (so its result coincides with the cost of service EC2), and the
SKU-level engine returns exactly the tiered cost of the usage under the
one-tier default table of flat rate 0.01. -/
theorem c9_unknown_sku_fallback (sku : String) (usage : ℚ)
    (hA : PRICING_TIERS sku = none) (hB : SKU_PRICING_TIERS sku = none)
    (hu : 0 ≤ usage) :
    calculateTieredCost sku usage = calculateTieredCost "EC2" usage ∧
    calculateSKUTieredCost sku usage = skuTierAux specDefaultFlatTiers usage 0 := by
  have hflat : skuTierAux specDefaultFlatTiers usage 0 = usage * 0.01 := by
    rcases eq_or_lt_of_le hu with h0 | h0
    · simp [skuTierAux, specDefaultFlatTiers, ← h0]
    · simp only [skuTierAux, specDefaultFlatTiers]
      rw [if_neg (not_le.mpr h0)]
      simp only [max_self]
      rw [if_pos (show (0 : ℚ) < usage - 0 by linarith), if_pos (le_refl usage)]
      ring
  constructor
  · unfold calculateTieredCost
    rw [hA]
    norm_num [PRICING_TIERS]
  · unfold calculateSKUTieredCost
    rw [hB, hflat]

/-- C9 witness: the SKU Foo is absent from both catalogs and usage 100 is
nonnegative; the fallback equalities hold there. -/
theorem c9_unknown_sku_fallback_witness :
    calculateTieredCost "Foo" 100 = calculateTieredCost "EC2" 100 ∧
    calculateSKUTieredCost "Foo" 100 = skuTierAux specDefaultFlatTiers 100 0 :=
  c9_unknown_sku_fallback "Foo" 100 rfl rfl (by norm_num)

/-- C1: for every SKU and every list of per-invoice usages for it with a
positive aggregate, summing each invoice's pooled contribution (its usage
divided by the pool total, times the tiered cost of the pool total, as
computed by calculateCustomerSKUPooledCost) over all invoices yields
exactly the tiered cost of the pool total for that SKU; this holds for
any partition, including a single invoice. -/
theorem c1_pooled_shares_reconstruct (sku : String) (usages : List ℚ)
    (hpos : 0 < usages.sum) :
    (usages.map (fun u =>
        calculateCustomerSKUPooledCost [⟨sku, u⟩]
          (fun s => if s = sku then usages.sum else 0))).sum
      = calculateSKUTieredCost sku usages.sum := by
  have hS : usages.sum ≠ 0 := ne_of_gt hpos
  have hmap : usages.map (fun u =>
        calculateCustomerSKUPooledCost [⟨sku, u⟩]
          (fun s => if s = sku then usages.sum else 0))
      = usages.map (fun u => calculateSKUTieredCost sku usages.sum / usages.sum * u) := by
    apply List.map_congr_left
    intro u _
    simp only [calculateCustomerSKUPooledCost, List.map_cons, List.map_nil,
      List.sum_cons, List.sum_nil, add_zero, if_pos rfl, eq_self_iff_true, if_true]
    by_cases hu : u = 0
    · simp [hu]
    · rw [if_neg (by push_neg; exact ⟨hS, hu⟩)]
      ring
  rw [hmap]
  have h2 := List.sum_map_mul_left usages id
    (calculateSKUTieredCost sku usages.sum / usages.sum)
  simp only [List.map_id, id] at h2
  rw [h2]
  exact div_mul_cancel₀ _ hS

/-- C1 witness: two invoices with EC2-t3.micro usages 500 and 1000 pool to
1500; the summed pooled contributions equal the tiered cost at 1500. -/
theorem c1_pooled_shares_reconstruct_witness :
    0 < ([(500 : ℚ), 1000]).sum ∧
    (([(500 : ℚ), 1000]).map (fun u =>
        calculateCustomerSKUPooledCost [⟨"EC2-t3.micro-us-east-1", u⟩]
          (fun s => if s = "EC2-t3.micro-us-east-1" then ([(500 : ℚ), 1000]).sum else 0))).sum
      = calculateSKUTieredCost "EC2-t3.micro-us-east-1" ([(500 : ℚ), 1000]).sum := by
  have hpos : 0 < ([(500 : ℚ), 1000]).sum := by norm_num
  exact ⟨hpos, c1_pooled_shares_reconstruct "EC2-t3.micro-us-east-1" [(500 : ℚ), 1000] hpos⟩

/-- C10: the delete-invoice operation keeps exactly the invoices whose id
differs from the given one, preserving order and content (the result is a
sublist of the collection containing precisely the non-matching
invoices); when no invoice has the id it answers 404 with the collection
unchanged, and when some invoice has it it answers 200. -/
theorem c10_delete_invoice (invoices : List StoredInvoice) (id : String) :
    (deleteInvoice invoices id).1.Sublist invoices ∧
    (∀ inv, inv ∈ (deleteInvoice invoices id).1 ↔ inv ∈ invoices ∧ inv.id ≠ id) ∧
    ((∀ inv ∈ invoices, inv.id ≠ id) →
      (deleteInvoice invoices id).2 = 404 ∧ (deleteInvoice invoices id).1 = invoices) ∧
    ((∃ inv ∈ invoices, inv.id = id) → (deleteInvoice invoices id).2 = 200) := by
  have hfst : (deleteInvoice invoices id).1
      = invoices.filter (fun inv => inv.id != id) := by
    unfold deleteInvoice
    dsimp only
    split <;> rfl
  refine ⟨?_, ?_, ?_, ?_⟩
  · rw [hfst]; exact List.filter_sublist invoices
  · intro inv
    rw [hfst, List.mem_filter]
    simp [bne_iff_ne]
  · intro hall
    have hself : invoices.filter (fun inv => inv.id != id) = invoices :=
      List.filter_eq_self.mpr (fun inv hm => by
        simpa [bne_iff_ne] using hall inv hm)
    constructor
    · unfold deleteInvoice
      dsimp only
      rw [if_neg]
      rw [hself]
      exact lt_irrefl _
    · rw [hfst, hself]
  · rintro ⟨inv, hm, hid⟩
    have hlt : (invoices.filter (fun inv => inv.id != id)).length < invoices.length :=
      List.length_filter_lt_length_iff_exists.mpr ⟨inv, hm, by simp [hid]⟩
    unfold deleteInvoice
    dsimp only
    rw [if_pos hlt]

/-- C10 witness: deleting id b from a two-invoice collection answers 200,
and deleting the absent id zzz answers 404 leaving the collection
unchanged. -/
theorem c10_delete_invoice_witness :
    (deleteInvoice [⟨"a", "X", [], 0⟩, ⟨"b", "Y", [], 0⟩] "zzz").2 = 404 ∧
    (deleteInvoice [⟨"a", "X", [], 0⟩, ⟨"b", "Y", [], 0⟩] "zzz").1
      = [⟨"a", "X", [], 0⟩, ⟨"b", "Y", [], 0⟩] ∧
    (deleteInvoice [⟨"a", "X", [], 0⟩, ⟨"b", "Y", [], 0⟩] "b").2 = 200 := by
  refine ⟨?_, ?_, ?_⟩
  · exact ((c10_delete_invoice [⟨"a", "X", [], 0⟩, ⟨"b", "Y", [], 0⟩] "zzz").2.2.1
      (by intro inv hm; fin_cases hm <;> simp)).1
  · exact ((c10_delete_invoice [⟨"a", "X", [], 0⟩, ⟨"b", "Y", [], 0⟩] "zzz").2.2.1
      (by intro inv hm; fin_cases hm <;> simp)).2
  · exact (c10_delete_invoice [⟨"a", "X", [], 0⟩, ⟨"b", "Y", [], 0⟩] "b").2.2.2
      ⟨⟨"b", "Y", [], 0⟩, by simp, rfl⟩

/-- Tier capacity of the capacity loop: the remaining usage for an
infinite tier, maxUsage - minUsage + 1 for a finite one. -/
def capOf (t : SKUTier) (remainingUsage : ℚ) : ℚ :=
  match t.maxUsage with
  | none => remainingUsage
  | some m => m - t.minUsage + 1

theorem calcTierAux_nonpos (tiers : List SKUTier) (r : ℚ) (hr : r ≤ 0) :
    calcTierAux tiers r = 0 := by
  cases tiers with
  | nil => rfl
  | cons t rest => simp [calcTierAux, if_pos hr]

theorem calcTierAux_cons (t : SKUTier) (rest : List SKUTier) (r : ℚ) (hr : ¬ r ≤ 0) :
    calcTierAux (t :: rest) r =
      min r (capOf t r) * t.pricePerUnit + calcTierAux rest (r - min r (capOf t r)) := by
  simp [calcTierAux, capOf, if_neg hr]

theorem calcTierAux_nonneg (tiers : List SKUTier) (h : CapTableOK tiers) (r : ℚ) :
    0 ≤ calcTierAux tiers r := by
  induction tiers generalizing r with
  | nil => simp [calcTierAux]
  | cons t rest ih =>
    by_cases hr : r ≤ 0
    · rw [calcTierAux_nonpos _ _ hr]
    · rw [calcTierAux_cons t rest r hr]
      have hp := (h t (List.mem_cons_self t rest)).1
      have hrest : CapTableOK rest := fun u hu => h u (List.mem_cons_of_mem t hu)
      have hcap : 0 ≤ capOf t r := by
        rcases htm : t.maxUsage with _ | m
        · simp only [capOf, htm]; linarith [not_le.mp hr]
        · simp only [capOf, htm]; exact (h t (List.mem_cons_self t rest)).2 m htm
      have hused : 0 ≤ min r (capOf t r) := le_min (le_of_lt (not_le.mp hr)) hcap
      exact add_nonneg (mul_nonneg hused hp) (ih hrest _)

theorem calcTierAux_mono (tiers : List SKUTier) (h : CapTableOK tiers) (r1 r2 : ℚ)
    (h12 : r1 ≤ r2) : calcTierAux tiers r1 ≤ calcTierAux tiers r2 := by
  induction tiers generalizing r1 r2 with
  | nil => simp [calcTierAux]
  | cons t rest ih =>
    have hp := (h t (List.mem_cons_self t rest)).1
    have hrest : CapTableOK rest := fun u hu => h u (List.mem_cons_of_mem t hu)
    by_cases h2 : r2 ≤ 0
    · rw [calcTierAux_nonpos _ _ (le_trans h12 h2), calcTierAux_nonpos _ _ h2]
    by_cases h1 : r1 ≤ 0
    · rw [calcTierAux_nonpos _ _ h1]
      exact calcTierAux_nonneg _ h r2
    rw [calcTierAux_cons t rest r1 h1, calcTierAux_cons t rest r2 h2]
    rcases htm : t.maxUsage with _ | m
    · have hc1 : capOf t r1 = r1 := by simp [capOf, htm]
      have hc2 : capOf t r2 = r2 := by simp [capOf, htm]
      rw [hc1, hc2, min_self, min_self, sub_self, sub_self]
      exact add_le_add (mul_le_mul_of_nonneg_right h12 hp) le_rfl
    · have hc1 : capOf t r1 = m - t.minUsage + 1 := by simp [capOf, htm]
      have hc2 : capOf t r2 = m - t.minUsage + 1 := by simp [capOf, htm]
      rw [hc1, hc2]
      have hminle : min r1 (m - t.minUsage + 1) ≤ min r2 (m - t.minUsage + 1) :=
        min_le_min h12 le_rfl
      have hremle : r1 - min r1 (m - t.minUsage + 1) ≤ r2 - min r2 (m - t.minUsage + 1) := by
        rw [min_def, min_def]
        split_ifs <;> linarith
      exact add_le_add (mul_le_mul_of_nonneg_right hminle hp) (ih hrest _ _ hremle)

theorem tierClosed_eq_zero {U m : ℚ} {rest : List SKUTier} (h : TiersWF m rest) :
    U ≤ m → tierClosed rest U = 0 := by
  induction h with
  | last s p =>
    intro hU
    simp only [tierClosed]
    rw [max_eq_left (by linarith : U - s ≤ 0)]
    ring
  | cons s m2 p rest hsm hrest ih =>
    intro hU
    simp only [tierClosed]
    rw [ih (by linarith), max_eq_left (by
      have : min m2 U ≤ U := min_le_right m2 U
      linarith : min m2 U - s ≤ 0)]
    ring

theorem skuTierAux_eq_closed {s : ℚ} {tiers : List SKUTier} (h : TiersWF s tiers) (U : ℚ) :
    skuTierAux tiers U s = tierClosed tiers U := by
  induction h with
  | last s p =>
    by_cases hU : U ≤ s
    · simp only [skuTierAux, tierClosed, if_pos hU]
      rw [max_eq_left (by linarith : U - s ≤ 0)]
      ring
    · simp only [skuTierAux, tierClosed, if_neg hU]
      rw [max_self, if_pos (by linarith [not_le.mp hU] : (0 : ℚ) < U - s),
        if_pos (le_refl U), max_eq_right (by linarith [not_le.mp hU] : (0 : ℚ) ≤ U - s)]
      ring
  | cons s m p rest hsm hrest ih =>
    by_cases hU : U ≤ s
    · simp only [skuTierAux, tierClosed, if_pos hU]
      rw [tierClosed_eq_zero hrest (by linarith),
        max_eq_left (by
          have : min m U ≤ U := min_le_right m U
          linarith : min m U - s ≤ 0)]
      ring
    · have hsU : s < U := not_le.mp hU
      have hsmin : s < min m U := lt_min hsm hsU
      simp only [skuTierAux, tierClosed, if_neg hU, max_self]
      rw [if_pos (by linarith : (0 : ℚ) < min m U - s)]
      by_cases hUm : U ≤ m
      · rw [min_eq_right hUm]
        rw [if_pos (le_refl U), tierClosed_eq_zero hrest hUm,
          max_eq_right (by linarith : (0 : ℚ) ≤ U - s)]
        ring
      · have hmU : m < U := not_le.mp hUm
        rw [min_eq_left (le_of_lt hmU)]
        rw [if_neg (by linarith : ¬ U ≤ m),
          if_pos (by linarith : (0 : ℚ) < m - s),
          show s + (m - s) = m from by ring, ih,
          max_eq_right (by linarith : (0 : ℚ) ≤ m - s)]
        ring

theorem tierClosed_mono {tiers : List SKUTier} (hp : PricesNonneg tiers) {U1 U2 : ℚ}
    (h12 : U1 ≤ U2) : tierClosed tiers U1 ≤ tierClosed tiers U2 := by
  induction tiers with
  | nil => simp [tierClosed]
  | cons t rest ih =>
    have hpt := hp t (List.mem_cons_self t rest)
    have hprest : PricesNonneg rest := fun u hu => hp u (List.mem_cons_of_mem t hu)
    simp only [tierClosed]
    have he : (match t.maxUsage with | none => U1 | some m => min m U1)
        ≤ (match t.maxUsage with | none => U2 | some m => min m U2) := by
      rcases htm : t.maxUsage with _ | m
      · exact h12
      · exact min_le_min le_rfl h12
    exact add_le_add
      (mul_le_mul_of_nonneg_left (max_le_max le_rfl (sub_le_sub_right he _)) hpt)
      (ih hprest)

theorem skuTable_mono (tiers : List SKUTier) (hwf : TiersWF 0 tiers)
    (hp : PricesNonneg tiers) (u1 u2 : ℚ) (h12 : u1 ≤ u2) :
    skuTierAux tiers u1 0 ≤ skuTierAux tiers u2 0 := by
  rw [skuTierAux_eq_closed hwf u1, skuTierAux_eq_closed hwf u2]
  exact tierClosed_mono hp h12

/-- Every table of the part_004 catalog is a well-formed contiguous tier
table starting at 0 with nonnegative prices. -/
theorem catalogTablesOK : ∀ e ∈ SKU_PRICING_LIST, TiersWF 0 e.2 ∧ PricesNonneg e.2 := by
  intro e he
  simp only [SKU_PRICING_LIST, List.mem_cons, List.not_mem_nil, or_false] at he
  rcases he with rfl | rfl | rfl | rfl | rfl | rfl | rfl | rfl | rfl | rfl | rfl | rfl <;>
    exact ⟨by repeat
             first
               | exact TiersWF.last _ _
               | refine TiersWF.cons _ _ _ _ (by norm_num) ?_,
           by norm_num [PricesNonneg, List.forall_mem_cons]⟩

/-- C4: for every SKU and all nonnegative usages u1 ≤ u2, both tiered
cost engines are monotone: the service-level calculateTieredCost of
src/api/pool/stats.js and the SKU-level calculateSKUTieredCost of
src/unnamed/part_004 satisfy cost(sku, u1) ≤ cost(sku, u2). -/
theorem c4_tiered_cost_monotone (sku : String) (u1 u2 : ℚ)
    (h0 : 0 ≤ u1) (h12 : u1 ≤ u2) :
    calculateTieredCost sku u1 ≤ calculateTieredCost sku u2 ∧
    calculateSKUTieredCost sku u1 ≤ calculateSKUTieredCost sku u2 := by
  constructor
  · have hokE : CapTableOK statsEC2Tiers := by
      intro t ht
      simp only [statsEC2Tiers, statsS3Tiers, List.mem_cons, List.not_mem_nil,
        or_false] at ht
      rcases ht with rfl | rfl | rfl
      · exact ⟨by norm_num, by intro m hm; injection hm with h3; subst h3; norm_num⟩
      · exact ⟨by norm_num, by intro m hm; injection hm with h3; subst h3; norm_num⟩
      · exact ⟨by norm_num, by intro m hm; exact Option.noConfusion hm⟩
    have hokS : CapTableOK statsS3Tiers := by
      intro t ht
      simp only [statsEC2Tiers, statsS3Tiers, List.mem_cons, List.not_mem_nil,
        or_false] at ht
      rcases ht with rfl | rfl | rfl
      · exact ⟨by norm_num, by intro m hm; injection hm with h3; subst h3; norm_num⟩
      · exact ⟨by norm_num, by intro m hm; injection hm with h3; subst h3; norm_num⟩
      · exact ⟨by norm_num, by intro m hm; exact Option.noConfusion hm⟩
    have hcat : (PRICING_TIERS sku).getD statsEC2Tiers = statsEC2Tiers ∨
        (PRICING_TIERS sku).getD statsEC2Tiers = statsS3Tiers := by
      unfold PRICING_TIERS
      split_ifs <;> simp
    rcases hcat with h | h <;> unfold calculateTieredCost <;> rw [h]
    · exact calcTierAux_mono _ hokE _ _ h12
    · exact calcTierAux_mono _ hokS _ _ h12
  · rcases hlk : SKU_PRICING_TIERS sku with _ | tiers
    · unfold calculateSKUTieredCost
      rw [hlk]
      exact mul_le_mul_of_nonneg_right h12 (by norm_num)
    · have hmem : ∃ e ∈ SKU_PRICING_LIST, e.2 = tiers := by
        unfold SKU_PRICING_TIERS at hlk
        rcases hf : SKU_PRICING_LIST.find? (fun e => e.1 == sku) with _ | e
        · rw [hf] at hlk
          simp at hlk
        · rw [hf] at hlk
          rw [Option.map_some'] at hlk
          injection hlk with hlk2
          exact ⟨e, List.mem_of_find?_eq_some hf, hlk2⟩
      obtain ⟨e, he, het⟩ := hmem
      have hok := catalogTablesOK e he
      rw [het] at hok
      unfold calculateSKUTieredCost
      rw [hlk]
      exact skuTable_mono tiers hok.1 hok.2 u1 u2 h12

/-- C4 witness: at SKU EC2 with usages 100 ≤ 200 both engines are
monotone. -/
theorem c4_tiered_cost_monotone_witness :
    calculateTieredCost "EC2" 100 ≤ calculateTieredCost "EC2" 200 ∧
    calculateSKUTieredCost "EC2" 100 ≤ calculateSKUTieredCost "EC2" 200 :=
  c4_tiered_cost_monotone "EC2" 100 200 (by norm_num) (by norm_num)

/-! ## Deduplication lemmas -/

theorem removeDupAux_sublist (items : List Item) (seen : List (String × ℚ)) :
    (removeDupAux items seen).Sublist items := by
  induction items generalizing seen with
  | nil => simp [removeDupAux]
  | cons it rest ih =>
    simp only [removeDupAux]
    split_ifs with h
    · exact (ih seen).trans (List.sublist_cons_self it rest)
    · exact List.Sublist.cons₂ it (ih _)

theorem removeDupAux_mem (items : List Item) (seen : List (String × ℚ)) :
    ∀ jt ∈ removeDupAux items seen, jt ∈ items ∧ itemKey jt ∉ seen := by
  induction items generalizing seen with
  | nil => simp [removeDupAux]
  | cons it rest ih =>
    intro jt hjt
    simp only [removeDupAux] at hjt
    split_ifs at hjt with h
    · obtain ⟨h1, h2⟩ := ih seen jt hjt
      exact ⟨List.mem_cons_of_mem it h1, h2⟩
    · rcases List.mem_cons.mp hjt with rfl | hjt2
      · exact ⟨List.mem_cons_self jt rest, h⟩
      · obtain ⟨h1, h2⟩ := ih (itemKey it :: seen) jt hjt2
        exact ⟨List.mem_cons_of_mem it h1, fun hs => h2 (List.mem_cons_of_mem _ hs)⟩

theorem removeDupAux_first (items : List Item) (seen : List (String × ℚ)) :
    ∀ jt ∈ removeDupAux items seen,
      items.find? (fun x => decide (itemKey x = itemKey jt)) = some jt := by
  induction items generalizing seen with
  | nil => simp [removeDupAux]
  | cons it rest ih =>
    intro jt hjt
    simp only [removeDupAux] at hjt
    split_ifs at hjt with h
    · have hne : itemKey it ≠ itemKey jt := by
        intro he
        exact (removeDupAux_mem rest seen jt hjt).2 (he ▸ h)
      rw [List.find?_cons_of_neg _ (by simpa using hne)]
      exact ih seen jt hjt
    · rcases List.mem_cons.mp hjt with rfl | hjt2
      · exact List.find?_cons_of_pos _ (by simp)
      · have hne : itemKey it ≠ itemKey jt := by
          intro he
          exact (removeDupAux_mem rest (itemKey it :: seen) jt hjt2).2
            (he ▸ List.mem_cons_self _ _)
        rw [List.find?_cons_of_neg _ (by simpa using hne)]
        exact ih (itemKey it :: seen) jt hjt2

theorem removeDupAux_pairwise (items : List Item) (seen : List (String × ℚ)) :
    (removeDupAux items seen).Pairwise (fun a b => itemKey a ≠ itemKey b) := by
  induction items generalizing seen with
  | nil => simp [removeDupAux]
  | cons it rest ih =>
    simp only [removeDupAux]
    split_ifs with h
    · exact ih seen
    · refine List.Pairwise.cons ?_ (ih (itemKey it :: seen))
      intro b hb
      have := (removeDupAux_mem rest (itemKey it :: seen) b hb).2
      intro he
      exact this (he ▸ List.mem_cons_self _ _)

theorem removeDupAux_covers (items : List Item) (seen : List (String × ℚ)) :
    ∀ it ∈ items, itemKey it ∈ seen ∨
      ∃ jt ∈ removeDupAux items seen, itemKey jt = itemKey it := by
  induction items generalizing seen with
  | nil => simp
  | cons a rest ih =>
    intro it hit
    simp only [removeDupAux]
    split_ifs with h
    · rcases List.mem_cons.mp hit with rfl | hit2
      · exact Or.inl h
      · exact ih seen it hit2
    · rcases List.mem_cons.mp hit with rfl | hit2
      · exact Or.inr ⟨it, List.mem_cons_self _ _, rfl⟩
      · rcases ih (itemKey a :: seen) it hit2 with hs | ⟨jt, hjt, he⟩
        · rcases List.mem_cons.mp hs with he2 | hs2
          · exact Or.inr ⟨a, List.mem_cons_self _ _, he2.symm⟩
          · exact Or.inl hs2
        · exact Or.inr ⟨jt, List.mem_cons_of_mem a hjt, he⟩

/-- C8: removeDuplicateItems merges the candidate records by the identity
key (service, cost): the output is a sublist of the input (order
preserved) whose records have pairwise distinct keys; every output record
is the first input record bearing its key (so later duplicates of a key
are dropped); and every input key is still represented, so records with
distinct keys are all kept. -/
theorem c8_dedup_by_identity_key (items : List Item) :
    (removeDuplicateItems items).Sublist items ∧
    (removeDuplicateItems items).Pairwise (fun a b => itemKey a ≠ itemKey b) ∧
    (∀ jt ∈ removeDuplicateItems items,
      items.find? (fun x => decide (itemKey x = itemKey jt)) = some jt) ∧
    (∀ it ∈ items, ∃ jt ∈ removeDuplicateItems items, itemKey jt = itemKey it) := by
  refine ⟨removeDupAux_sublist items [], removeDupAux_pairwise items [],
    removeDupAux_first items [], ?_⟩
  intro it hit
  rcases removeDupAux_covers items [] it hit with h | h
  · exact absurd h (List.not_mem_nil _)
  · exact h

/-- C8 witness: in a three-record list where the second record repeats the
key of the first, the key of the dropped record is still represented in
the dedup output. -/
theorem c8_dedup_by_identity_key_witness :
    ∃ jt ∈ removeDuplicateItems
        [⟨"i1", "EC2", 1, 5, "us-east-1", "hours"⟩,
         ⟨"i2", "EC2", 2, 5, "us-east-1", "hours"⟩,
         ⟨"i3", "S3", 3, 7, "us-east-1", "GB"⟩],
      itemKey jt = itemKey ⟨"i2", "EC2", 2, 5, "us-east-1", "hours"⟩ :=
  (c8_dedup_by_identity_key
      [⟨"i1", "EC2", 1, 5, "us-east-1", "hours"⟩,
       ⟨"i2", "EC2", 2, 5, "us-east-1", "hours"⟩,
       ⟨"i3", "S3", 3, 7, "us-east-1", "GB"⟩]).2.2.2
    ⟨"i2", "EC2", 2, 5, "us-east-1", "hours"⟩ (by simp)

/-! ## Extraction lemmas -/

theorem matchToks_suffix : ∀ (pat : List NameTok) (s : List Char) (n : Nat) (r : List Char),
    matchToks pat s = some (n, r) → r.IsSuffix s := by
  intro pat
  induction pat with
  | nil =>
    intro s n r h
    simp only [matchToks, Option.some.injEq, Prod.mk.injEq] at h
    obtain ⟨-, rfl⟩ := h
    exact List.suffix_refl s
  | cons tok ts ih =>
    intro s n r h
    cases tok with
    | lit p =>
      cases s with
      | nil => simp [matchToks] at h
      | cons c s2 =>
        simp only [matchToks] at h
        split_ifs at h with hc
        · rcases hrec : matchToks ts s2 with _ | ⟨n2, r2⟩
          · rw [hrec] at h
            simp at h
          · rw [hrec] at h
            simp only [Option.some.injEq, Prod.mk.injEq] at h
            obtain ⟨-, rfl⟩ := h
            exact (ih s2 n2 r2 hrec).trans (List.suffix_cons c s2)
    | ws =>
      simp only [matchToks] at h
      split_ifs at h with hw
      · rcases hrec : matchToks ts (s.dropWhile isWsChar) with _ | ⟨n2, r2⟩
        · rw [hrec] at h
          simp at h
        · rw [hrec] at h
          simp only [Option.some.injEq, Prod.mk.injEq] at h
          obtain ⟨-, rfl⟩ := h
          exact (ih _ n2 r2 hrec).trans (List.dropWhile_suffix _)

theorem tailsAny_false_suffix (p : List Char → Bool) {s t : List Char}
    (hts : t.IsSuffix s) (h : s.tails.any p = false) : t.tails.any p = false := by
  rw [List.any_eq_false] at h ⊢
  intro u hu
  exact h u ((List.mem_tails _ _).mpr (((List.mem_tails _ _).mp hu).trans hts))

theorem tailsAny_false_self (p : List Char → Bool) {s : List Char}
    (h : s.tails.any p = false) : p s = false := by
  rw [List.any_eq_false] at h
  have h2 := h s ((List.mem_tails _ _).mpr (List.suffix_refl s))
  simpa using h2

theorem tryDollarAt_none_of_noCurrency (s : List Char)
    (h : currencyOccurs s = false) : tryDollarAt s = none := by
  have h2 := tailsAny_false_self _ h
  rcases h3 : tryDollarAt s with _ | v
  · rfl
  · rw [h3] at h2
    simp at h2

theorem lazyDollar_none_of_noCurrency : ∀ (s : List Char),
    currencyOccurs s = false → lazyDollar s = none := by
  intro s
  induction s with
  | nil => intro _; rfl
  | cons c s2 ih =>
    intro h
    have h0 : tryDollarAt (c :: s2) = none := tryDollarAt_none_of_noCurrency _ h
    have h1 : currencyOccurs s2 = false := tailsAny_false_suffix _ (List.suffix_cons c s2) h
    simp only [lazyDollar, h0, ih h1]
    split_ifs <;> rfl

theorem tryServiceAt_none_of_noCurrency (pat : List NameTok) (s : List Char)
    (h : currencyOccurs s = false) : tryServiceAt pat s = none := by
  unfold tryServiceAt
  rcases hm : matchToks pat s with _ | ⟨n, r⟩
  · rfl
  · have hr := matchToks_suffix pat s n r hm
    dsimp only
    rw [lazyDollar_none_of_noCurrency r (tailsAny_false_suffix _ hr h)]

theorem tryServiceAt_none_of_noName (pat : List NameTok) (s : List Char)
    (h : nameOccurs pat s = false) : tryServiceAt pat s = none := by
  unfold tryServiceAt
  have h0 : matchToks pat s = none := by
    have h2 := tailsAny_false_self _ h
    rcases h3 : matchToks pat s with _ | v
    · rfl
    · rw [h3] at h2
      simp at h2
  rw [h0]

theorem scanGo_eq_nil (tryAt : List Char → Option (List Char × Nat)) :
    ∀ (s : List Char), (∀ t : List Char, t.IsSuffix s → tryAt t = none) →
      ∀ k, scanGo tryAt s k = [] := by
  intro s
  induction s with
  | nil => intro _ k; rfl
  | cons c rest ih =>
    intro h k
    have h2 : ∀ t : List Char, t.IsSuffix rest → tryAt t = none :=
      fun t ht => h t (ht.trans (List.suffix_cons c rest))
    cases k with
    | succ k2 => exact ih h2 k2
    | zero =>
      have h0 : tryAt (c :: rest) = none := h _ (List.suffix_refl _)
      show (match tryAt (c :: rest) with
            | some (cap, n) => cap :: scanGo tryAt rest (n - 1)
            | none => scanGo tryAt rest 0) = []
      rw [h0]
      exact ih h2 0

theorem scanAll_service_nil_of_noCurrency (pat : List NameTok) (s : List Char)
    (h : currencyOccurs s = false) : scanAll (tryServiceAt pat) s = [] :=
  scanGo_eq_nil _ s
    (fun t ht => tryServiceAt_none_of_noCurrency pat t (tailsAny_false_suffix _ ht h)) 0

theorem scanAll_dollar_nil_of_noCurrency (s : List Char)
    (h : currencyOccurs s = false) : scanAll tryDollarAt s = [] :=
  scanGo_eq_nil _ s
    (fun t ht => tryDollarAt_none_of_noCurrency t (tailsAny_false_suffix _ ht h)) 0

theorem scanAll_service_nil_of_noName (pat : List NameTok) (s : List Char)
    (h : nameOccurs pat s = false) : scanAll (tryServiceAt pat) s = [] :=
  scanGo_eq_nil _ s
    (fun t ht => tryServiceAt_none_of_noName pat t (tailsAny_false_suffix _ ht h)) 0

theorem foldl_addPatternItems_id (now : ℕ) (s : List Char) :
    ∀ (pats : List (List NameTok × String)) (acc : List Item),
      (∀ p ∈ pats, scanAll (tryServiceAt p.1) s = []) →
      pats.foldl (addPatternItems now s) acc = acc := by
  intro pats
  induction pats with
  | nil => intro acc _; rfl
  | cons p ps ih =>
    intro acc h
    rw [List.foldl_cons]
    have hp : addPatternItems now s acc p = acc := by
      unfold addPatternItems
      rw [h p (List.mem_cons_self p ps)]
      rfl
    rw [hp]
    exact ih acc (fun q hq => h q (List.mem_cons_of_mem p hq))

theorem strategyItems_nil_of_noCurrency (now : ℕ) (text : String)
    (h : currencyOccurs text.toList = false) : strategyItems now text.toList = [] := by
  unfold strategyItems
  apply foldl_addPatternItems_id
  intro p _
  exact scanAll_service_nil_of_noCurrency p.1 _ h

theorem strategyItems_nil_of_noName (now : ℕ) (text : String)
    (h : anyServiceNameOccurs text = false) : strategyItems now text.toList = [] := by
  unfold strategyItems
  apply foldl_addPatternItems_id
  intro p hp
  apply scanAll_service_nil_of_noName
  rw [anyServiceNameOccurs, List.any_eq_false] at h
  have h2 := h p hp
  simpa using h2

/-- C6: for every nonempty input text containing no currency amount (no
position matches the currency pattern) and no recognized service name,
parseInvoiceText reports the hard parse failure (the throw, modelled as
none) rather than succeeding with an empty record list; the embedding is
total, so no crash is possible. -/
theorem c6_parse_failure_without_currency (now : ℕ) (text : String)
    (hne : text ≠ "")
    (hcur : currencyOccurs text.toList = false)
    (hname : anyServiceNameOccurs text = false) :
    parseInvoiceText now text = none := by
  have hstrat : strategyItems now text.data = [] :=
    strategyItems_nil_of_noCurrency now text hcur
  have hdollar : scanAll tryDollarAt text.data = [] :=
    scanAll_dollar_nil_of_noCurrency text.toList hcur
  simp [parseInvoiceText, hstrat, hdollar]

/-- C6 witness: the text hello is nonempty, has no currency amount and no
service name, and extraction fails on it. -/
theorem c6_parse_failure_without_currency_witness :
    "hello" ≠ "" ∧ currencyOccurs (String.toList "hello") = false ∧
    anyServiceNameOccurs "hello" = false ∧ parseInvoiceText 0 "hello" = none :=
  ⟨by decide, by decide, by decide,
    c6_parse_failure_without_currency 0 "hello" (by decide) (by decide) (by decide)⟩

/-- C7 counterexample: the text containing the single currency amount
$0.00 and no recognized service name yields a ParseFailure, not a record:
the fallback only considers the first currency match and requires its
value to be positive, so the claim fails as stated. -/
theorem c7_counterexample :
    currencyOccurs (String.toList "$0.00") = true ∧
    anyServiceNameOccurs "$0.00" = false ∧
    parseInvoiceText 0 "$0.00" = none := by
  refine ⟨by decide, by decide, ?_⟩
  simp [parseInvoiceText, strategyItems, part002Pats, addPatternItems, scanAll, scanGo,
    tryServiceAt, matchToks, litToks, tryDollarAt, takeAmount, lazyDollar, isDigitComma,
    isDigitChar, isWsChar, lowerNat, stripCommas, parseRat, natOfDigits, digitVal]

/-- C7 amended: for every text containing no recognized service name whose
first currency match parses to a positive value, extraction yields exactly
one record, the fallback EC2 record for that value, and never a
ParseFailure. -/
theorem c7_fallback_single_record (now : ℕ) (text : String) (c : ℚ)
    (hname : anyServiceNameOccurs text = false)
    (hval : firstCurrencyValue text = some c)
    (hpos : 0 < c) :
    parseInvoiceText now text = some ([fallbackEC2Item now c], c) := by
  have hstrat : strategyItems now text.data = [] :=
    strategyItems_nil_of_noName now text hname
  rcases hscan : scanAll tryDollarAt text.toList with _ | ⟨cap, rest⟩
  · unfold firstCurrencyValue at hval
    rw [hscan] at hval
    simp at hval
  · have hcap : parseRat (stripCommas cap) = some c := by
      unfold firstCurrencyValue at hval
      rw [hscan] at hval
      exact hval
    have hscan2 : scanAll tryDollarAt text.data = cap :: rest := hscan
    simp [parseInvoiceText, hstrat, hscan2, hcap, hpos, fallbackEC2Item]

/-- C7 witness: the text with the single positive currency amount $5.00
and no service name yields exactly the one fallback EC2 record of cost 5. -/
theorem c7_fallback_single_record_witness :
    anyServiceNameOccurs "$5.00" = false ∧
    firstCurrencyValue "$5.00" = some 5 ∧ (0 : ℚ) < 5 ∧
    parseInvoiceText 3 "$5.00" = some ([fallbackEC2Item 3 5], 5) := by
  have h1 : anyServiceNameOccurs "$5.00" = false := by decide
  have h2 : firstCurrencyValue "$5.00" = some 5 := by
    simp [firstCurrencyValue, scanAll, scanGo, tryDollarAt, takeAmount, isDigitComma,
      isDigitChar, stripCommas, parseRat, natOfDigits, digitVal]
  have h3 : (0 : ℚ) < 5 := by norm_num
  exact ⟨h1, h2, h3, c7_fallback_single_record 3 "$5.00" 5 h1 h2 h3⟩

/-- C5: the extraction output depends on the wall clock: running
fallbackSKUParsing on the same input text at two different Date.now()
values produces different record lists, because every record id embeds the
timestamp; so two runs on identical input are not identical, violating the
determinism requirement. -/
theorem c5_extraction_depends_on_clock :
    fallbackSKUParsing 0 "Amazon CloudFront $5.00"
      ≠ fallbackSKUParsing 1 "Amazon CloudFront $5.00" := by
  simp [fallbackSKUParsing, part004Pats, addSkuPatternItems, mkSkuItem, scanAll, scanGo,
    tryServiceAt, matchToks, litToks, tryDollarAt, takeAmount, lazyDollar, isDigitComma,
    isDigitChar, isWsChar, lowerNat, stripCommas, parseRat, natOfDigits, digitVal,
    strContains, hasSubSeq, leadsWith, rawCodes, jsRound, Prod.ext_iff]
  decide
